import Mathlib

/-!
Verification development for the Context-AI retrieval core.

The JavaScript services under `src/backend/src/services` are shallowly
embedded as executable Lean definitions: strings are `String`/`List Char`,
JS numbers are modelled exactly where the code only performs integer
arithmetic (`ℕ`/`ℤ` with explicit 32-bit wrapping for the string hash) and
as rationals `ℚ` where the code performs decimal arithmetic; `Math.sqrt`
is kept abstract as a function parameter `sqrtFn : ℚ → ℚ` since none of
the verified properties depend on its value beyond sign preservation.
External collaborators (the Cohere embed/rerank providers, the Pinecone
store, the LLM) are function parameters returning `Except`, so a provider
"throw" is an `Except.error`.  Ambient process state (clock, RNG) is an
explicit `ProcessState` argument so that independence from it is provable.
-/

namespace ContextAI

/-! ## JS string and number primitives -/

/-- The common JS whitespace characters (subset of `\s` sufficient for the
texts considered here). -/
def isWsChar (c : Char) : Bool :=
  c = ' ' || c = '\n' || c = '\t' || c = '\r'

/-- JS `String.prototype.trim` on a character list. -/
def trimChars (l : List Char) : List Char :=
  ((l.dropWhile isWsChar).reverse.dropWhile isWsChar).reverse

/-- JS `s.substring(0, n)` (also `s.slice(0, n)` / `s.take n`). -/
def jsSubstring (s : String) (n : ℕ) : String :=
  String.mk (s.data.take n)

/-- JS `x || d` on an optional numeric option field: `0` and `undefined`
are both falsy and select the default. -/
def jsOrNat (o : Option ℕ) (d : ℕ) : ℕ :=
  match o with
  | none => d
  | some 0 => d
  | some n => n

/-- Does the pattern `pat` occur in `l` starting at index `i`? -/
def patAt (l pat : List Char) (i : ℕ) : Bool :=
  decide ((l.drop i).take pat.length = pat)

/-- JS `text.lastIndexOf(pat, fromIdx)`: the largest index `≤ fromIdx` at
which `pat` starts, if any. -/
def jsLastIndexOf (l pat : List Char) (fromIdx : ℕ) : Option ℕ :=
  (List.range (fromIdx + 1)).reverse.find? (patAt l pat)

/-- Wrap an integer into signed 32-bit range, as JS `| 0` / `& x` does. -/
def toInt32 (n : ℤ) : ℤ :=
  (n + 2 ^ 31) % 2 ^ 32 - 2 ^ 31

/-- JS `%` (fmod) for the non-negative rationals used here. -/
def qmod (x m : ℚ) : ℚ :=
  x - m * ⌊x / m⌋

/-! ## Chunker (`RAGService.splitIntoChunks`, ragService.js lines 208-248)

The `while (start < text.length)` loop is embedded with an explicit fuel
argument: `splitIntoChunksLoop text c o fuel start = none` means the loop
has not finished within `fuel` iterations, so `(∀ fuel, … = none)` states
that the loop never terminates from `start`. -/

/-- Source `const sentenceBreaks = ['. ', '! ', '? ', '\n\n', '\n', ' ']`. -/
def sentenceBreaks : List (List Char) :=
  [['.', ' '], ['!', ' '], ['?', ' '], ['\n', '\n'], ['\n'], [' ']]

/-- The value of `end` after one iteration's break search: start from
`end = start + chunkSize`; if that lies inside the text, accept the first
break from `sentenceBreaks` whose last occurrence before `end` satisfies
`breakIndex > start + chunkSize * 0.7` (exactly `10*breakIndex >
10*start + 7*chunkSize`); otherwise fall back to the last space after
`start`, else keep `end`. -/
def iterEnd (text : List Char) (c start : ℕ) : ℕ :=
  let e0 := start + c
  if e0 < text.length then
    match sentenceBreaks.findSome? (fun bs =>
        match jsLastIndexOf text bs e0 with
        | some bi => if 10 * start + 7 * c < 10 * bi then some (bi + bs.length) else none
        | none => none) with
    | some e => e
    | none =>
      match jsLastIndexOf text [' '] e0 with
      | some ls => if start < ls then ls + 1 else e0
      | none => e0
  else e0

/-- Source `text.substring(start, Math.min(end, text.length)).trim()`. -/
def chunkAt (text : List Char) (c start : ℕ) : List Char :=
  trimChars ((text.drop start).take (min (iterEnd text c start) text.length - start))

/-- The chunking `while` loop.  Each iteration computes `end`, extracts and
trims the chunk, keeps it only if longer than 20 characters, and advances
`start` to `end - overlap` clamped at zero (`ℕ` subtraction is exactly the
non-negative clamp of the source). -/
def splitIntoChunksLoop (text : List Char) (c o : ℕ) : ℕ → ℕ → Option (List (List Char))
  | 0, _ => none
  | fuel + 1, start =>
    if start < text.length then
      match splitIntoChunksLoop text c o fuel (iterEnd text c start - o) with
      | none => none
      | some rest =>
        some (if 20 < (chunkAt text c start).length then chunkAt text c start :: rest else rest)
    else some []

/-- A text on which the loop gets stuck: a one-letter word, a space, then a
long run without spaces. -/
def stuckText : List Char :=
  'a' :: ' ' :: List.replicate 20 'x'

theorem iterEnd_stuckText : iterEnd stuckText 10 0 = 2 := by decide

/-- C1.  The claim asserts that for all `0 ≤ overlap < chunkSize` the
chunking loop terminates with strictly increasing window start.  It does
not: on `stuckText` with `chunkSize = 10`, `overlap = 5`, the first
iteration ends at `end = 2` (last space + 1), the chunk `"a"` is discarded
as too small, and `start` advances to `max 0 (2 - 5) = 0`, reproducing the
initial state — the `while` loop runs forever.  Formally: no amount of
fuel makes the loop finish. -/
theorem splitIntoChunks_diverges :
    ∀ fuel : ℕ, splitIntoChunksLoop stuckText 10 5 fuel 0 = none := by
  intro fuel
  induction fuel with
  | zero => rfl
  | succ n ih =>
    have hstep : iterEnd stuckText 10 0 - 5 = 0 := by decide
    simp only [splitIntoChunksLoop, hstep, ih]
    decide

/-! ## Embedder fallback (`EmbeddingService.generateFallbackEmbedding`,
embeddingService.js lines 122-161) -/

/-- Ambient process state the JS runtime exposes (`Date.now`,
`Math.random` seed); the fallback embedding body never reads it, which is
what makes determinism provable rather than assumed. -/
structure ProcessState where
  now : ℕ
  randomSeed : ℕ

theorem length_dropWhile_le (p : Char → Bool) (l : List Char) :
    (l.dropWhile p).length ≤ l.length := by
  induction l with
  | nil => simp
  | cons a l ih =>
    by_cases h : p a
    · simp only [List.dropWhile_cons, h, if_true]
      exact ih.trans (Nat.le_succ _)
    · simp [List.dropWhile_cons, h]

/-- JS `text.split(/\s+/)`: split on maximal whitespace runs; a leading run
produces a leading empty field, a trailing run a trailing empty field, and
the empty string yields `[""]`, exactly as the JS regex split does. -/
def splitWsAux : List Char → List Char → List (List Char)
  | [], acc => [acc.reverse]
  | ch :: rest, acc =>
    if isWsChar ch then acc.reverse :: splitWsAux (rest.dropWhile isWsChar) []
    else splitWsAux rest (ch :: acc)
termination_by l _ => l.length
decreasing_by
  · simpa using Nat.lt_succ_of_le (length_dropWhile_le _ _)
  · simp

/-- JS `text.split(/\s+/)` on a string. -/
def jsSplitWs (s : String) : List String :=
  (splitWsAux s.data []).map String.mk

/-- One step of the word hash:
`hash = ((hash << 5) - hash) + word.charCodeAt(i); hash = hash & hash`,
with both the shift and the final `&` wrapping to signed 32 bits. -/
def hashStep (h : ℤ) (code : ℕ) : ℤ :=
  toInt32 (toInt32 (h * 32) - h + code)

/-- The per-word hash loop, starting from 0. -/
def jsHash (word : String) : ℤ :=
  word.data.foldl (fun h ch => hashStep h ch.toNat) 0

/-- Processing of one word: bump the base index by `0.1 (mod 1.0)` and the
three following indices (mod `dimensions`) by `0.05 (mod 0.5)`. -/
def applyWord (dims : ℕ) (emb : List ℚ) (word : String) : List ℚ :=
  let baseIndex := (jsHash word).natAbs % dims
  let e1 := emb.set baseIndex (qmod (emb.getD baseIndex 0 + 1/10) 1)
  [1, 2, 3].foldl (fun e j =>
    let idx := (baseIndex + j) % dims
    e.set idx (qmod (e.getD idx 0 + 1/20) (1/2))) e1

/-- The unnormalized fallback vector: a zero vector of the configured
dimension, accumulated over the lowercased whitespace-split words. -/
def rawFallback (dims : ℕ) (text : String) : List ℚ :=
  (jsSplitWs text.toLower).foldl (applyWord dims) (List.replicate dims (0 : ℚ))

/-- Source `embedding.reduce((sum, val) => sum + val * val, 0)`. -/
def sumSquares (l : List ℚ) : ℚ :=
  l.foldl (fun sum val => sum + val * val) 0

/-- Source `generateFallbackEmbedding`: hash-accumulate, then L2-normalize unless
the magnitude is not positive, in which case the vector is returned
unchanged.  `Math.sqrt` is the abstract `sqrtFn`; the `_st` process-state
argument is never consulted, mirroring a body with no time/randomness
dependence.  (The source's `try/catch` is unreachable: every operation in
the body is total.) -/
def generateFallbackEmbedding (sqrtFn : ℚ → ℚ) (dims : ℕ) (_st : ProcessState)
    (text : String) : List ℚ :=
  let embedding := rawFallback dims text
  let magnitude := sqrtFn (sumSquares embedding)
  if 0 < magnitude then embedding.map (fun val => val / magnitude) else embedding

theorem applyWord_length (dims : ℕ) (emb : List ℚ) (w : String) :
    (applyWord dims emb w).length = emb.length := by
  simp [applyWord, List.length_set]

theorem rawFallback_length (dims : ℕ) (text : String) :
    (rawFallback dims text).length = dims := by
  rw [rawFallback]
  have key : ∀ (ws : List String) (e : List ℚ),
      (ws.foldl (applyWord dims) e).length = e.length := by
    intro ws
    induction ws with
    | nil => intro e; rfl
    | cons w ws ih => intro e; rw [List.foldl_cons, ih, applyWord_length]
  rw [key, List.length_replicate]

theorem sumSquares_eq_sum_map (l : List ℚ) :
    sumSquares l = (l.map (fun v => v * v)).sum := by
  have key : ∀ (l : List ℚ) (a : ℚ),
      l.foldl (fun sum val => sum + val * val) a = a + (l.map (fun v => v * v)).sum := by
    intro l
    induction l with
    | nil => intro a; simp
    | cons x xs ih => intro a; simp [List.foldl_cons, ih]; ring
  simpa using key l 0

theorem eq_zero_of_sumSquares_nonpos (l : List ℚ) (h : sumSquares l ≤ 0) :
    ∀ x ∈ l, x = 0 := by
  intro x hx
  rw [sumSquares_eq_sum_map] at h
  have hnn : ∀ y ∈ l.map (fun v => v * v), (0 : ℚ) ≤ y := by
    intro y hy
    obtain ⟨v, _, rfl⟩ := List.mem_map.mp hy
    exact mul_self_nonneg v
  have hmem : x * x ∈ l.map (fun v => v * v) := List.mem_map.mpr ⟨x, hx, rfl⟩
  have hle : x * x ≤ (l.map (fun v => v * v)).sum := List.single_le_sum hnn _ hmem
  have : x * x = 0 := le_antisymm (hle.trans h) (mul_self_nonneg x)
  exact mul_self_eq_zero.mp this

/-- C3.  The fallback embedding is deterministic: it is a mathematical
function of the text (and the fixed square-root routine) alone — two calls
under arbitrarily different process states (clock, RNG) return identical
vectors. -/
theorem generateFallbackEmbedding_deterministic (sqrtFn : ℚ → ℚ) (dims : ℕ)
    (st1 st2 : ProcessState) (text : String) :
    generateFallbackEmbedding sqrtFn dims st1 text =
      generateFallbackEmbedding sqrtFn dims st2 text := rfl

/-- C9.  The fallback embedding is total and dimension-preserving: for
every text (the empty string included) it returns a vector of exactly the
configured dimension (no index computed by the hash distribution escapes
the vector, and the embedding is a total function, so nothing throws), and
whenever the computed magnitude is not positive — for any square root that
is positive on positive inputs — the normalization branch is skipped and
the result is the all-zero vector of that dimension, so no division by
zero ever happens. -/
theorem generateFallbackEmbedding_total (sqrtFn : ℚ → ℚ) (dims : ℕ)
    (st : ProcessState) (text : String)
    (hs : ∀ q : ℚ, 0 < q → 0 < sqrtFn q) :
    (generateFallbackEmbedding sqrtFn dims st text).length = dims ∧
    (¬ 0 < sqrtFn (sumSquares (rawFallback dims text)) →
      generateFallbackEmbedding sqrtFn dims st text = List.replicate dims 0) := by
  constructor
  · by_cases h : 0 < sqrtFn (sumSquares (rawFallback dims text)) <;>
      simp [generateFallbackEmbedding, h, rawFallback_length]
  · intro h
    have hσ : sumSquares (rawFallback dims text) ≤ 0 := by
      by_contra hc
      exact h (hs _ (lt_of_not_le hc))
    have hz : ∀ x ∈ rawFallback dims text, x = 0 :=
      eq_zero_of_sumSquares_nonpos _ hσ
    have hrep : rawFallback dims text = List.replicate dims 0 := by
      rw [List.eq_replicate_iff]
      exact ⟨rawFallback_length dims text, hz⟩
    simp [generateFallbackEmbedding, h, hrep]

/-- Witness for C9 at a concrete input: square root instantiated with the
identity (positive on positives), dimension 4, text `"hello world"`. -/
theorem generateFallbackEmbedding_total_witness :
    (∀ q : ℚ, 0 < q → 0 < (fun x : ℚ => x) q) ∧
    ((generateFallbackEmbedding (fun x : ℚ => x) 4 ⟨0, 0⟩ "hello world").length = 4 ∧
      (¬ 0 < (fun x : ℚ => x) (sumSquares (rawFallback 4 "hello world")) →
        generateFallbackEmbedding (fun x : ℚ => x) 4 ⟨0, 0⟩ "hello world" =
          List.replicate 4 0)) :=
  ⟨fun _ h => h,
    generateFallbackEmbedding_total (fun x : ℚ => x) 4 ⟨0, 0⟩ "hello world" (fun _ h => h)⟩

/-! ## Cosine similarity (`EmbeddingService.cosineSimilarity`,
embeddingService.js lines 163-189)

The result type is `Except String ℚ` so that "throws an error" would be
representable as `Except.error`; the embedded body, like the source, has
no throwing branch — every path returns a plain value. -/

/-- Source `cosineSimilarity(vecA, vecB)`: on a dimension mismatch the source
logs and `return 0`; on zero magnitude it returns `0`; otherwise it
returns the cosine clamped into `[0, 1]` via `Math.max(0, Math.min(1, ·))`. -/
def cosineSimilarity (sqrtFn : ℚ → ℚ) (vecA vecB : List ℚ) : Except String ℚ :=
  if vecA.length ≠ vecB.length then .ok 0
  else
    let dotProduct := (vecA.zip vecB).foldl (fun s p => s + p.1 * p.2) 0
    let normA := sqrtFn (vecA.foldl (fun s v => s + v * v) 0)
    let normB := sqrtFn (vecB.foldl (fun s v => s + v * v) 0)
    if normA = 0 ∨ normB = 0 then .ok 0
    else .ok (max 0 (min 1 (dotProduct / (normA * normB))))

/-- Counterexample to C4 as stated: at the concrete mismatched pair
`[1]` vs `[1, 0]` the function does not fail fast — it returns the plain
value `0` (indistinguishable from the zero-magnitude sentinel), and no
error is surfaced to the caller. -/
theorem cosineSimilarity_mismatch_not_error :
    cosineSimilarity (fun q : ℚ => q) [1] [1, 0] = Except.ok 0 ∧
      ∀ e : String, cosineSimilarity (fun q : ℚ => q) [1] [1, 0] ≠ Except.error e := by
  refine ⟨rfl, fun e h => ?_⟩
  rw [show cosineSimilarity (fun q : ℚ => q) [1] [1, 0] = Except.ok 0 from rfl] at h
  exact Except.noConfusion h

/-- C4 amended.  For every pair of vectors of differing dimensions,
`cosineSimilarity` silently absorbs the mismatch into a result value: it
returns the sentinel `0` (after logging), and never propagates an error to
the caller. -/
theorem cosineSimilarity_mismatch_sentinel (sqrtFn : ℚ → ℚ) (vecA vecB : List ℚ)
    (h : vecA.length ≠ vecB.length) :
    cosineSimilarity sqrtFn vecA vecB = Except.ok 0 := by
  rw [cosineSimilarity, if_pos h]

/-- Witness for (amended) C4 at the concrete mismatched pair `[1]` vs
`[1, 0]`. -/
theorem cosineSimilarity_mismatch_sentinel_witness :
    ([1] : List ℚ).length ≠ ([1, 0] : List ℚ).length ∧
      cosineSimilarity (fun q : ℚ => q * 2) [1] [1, 0] = Except.ok 0 :=
  ⟨by decide, cosineSimilarity_mismatch_sentinel (fun q : ℚ => q * 2) [1] [1, 0] (by decide)⟩

/-! ## Reranker (`LLMService.rerankDocuments`) -/

/-- One entry of the rerank provider's response. -/
structure RerankResult where
  index : ℕ
  relevanceScore : ℚ
deriving DecidableEq

/-- Source `rerankDocuments(query, documents, topN)`: empty document lists are
answered locally with `[]`; otherwise the external rerank provider is
consulted, and if it throws, the catch block returns every input document
with neutral score `0.5` at its original position instead of propagating
the error. -/
def rerankDocuments (provider : String → List String → ℕ → Except String (List RerankResult))
    (query : String) (documents : List String) (topN : ℕ) : List RerankResult :=
  if documents.length = 0 then []
  else
    match provider query documents topN with
    | .ok results => results
    | .error _ => documents.mapIdx (fun index _doc => ⟨index, 1/2⟩)

theorem mapIdx_const_index {α β : Type} (g : ℕ → β) (l : List α) :
    l.mapIdx (fun i _ => g i) = (List.range l.length).map g := by
  rw [List.mapIdx_eq_enum_map, List.enum_eq_zip_range,
    show (Function.uncurry fun (i : ℕ) (_ : α) => g i) = g ∘ Prod.fst from rfl,
    ← List.map_map, List.map_fst_zip]
  simp

/-- C5.  When the document list is non-empty and the rerank provider
throws, `rerankDocuments` returns exactly `documents.length` entries, the
`i`-th being `{index: i, relevanceScore: 0.5}` — original order, neutral
scores, and the provider's error never reaches the caller. -/
theorem rerankDocuments_provider_failure
    (provider : String → List String → ℕ → Except String (List RerankResult))
    (query : String) (documents : List String) (topN : ℕ) (e : String)
    (hne : documents ≠ []) (hfail : provider query documents topN = .error e) :
    rerankDocuments provider query documents topN =
      (List.range documents.length).map (fun i => (⟨i, 1/2⟩ : RerankResult)) := by
  rw [rerankDocuments, if_neg (by simpa using hne), hfail, mapIdx_const_index]

/-- Witness for C5: a provider that always throws, on `["a", "b"]`. -/
theorem rerankDocuments_provider_failure_witness :
    (["a", "b"] : List String) ≠ [] ∧
      rerankDocuments (fun _ _ _ => Except.error "provider down") "q" ["a", "b"] 10 =
        (List.range (["a", "b"] : List String).length).map
          (fun i => (⟨i, 1/2⟩ : RerankResult)) :=
  ⟨by decide,
    rerankDocuments_provider_failure (fun _ _ _ => Except.error "provider down")
      "q" ["a", "b"] 10 "provider down" (by decide) rfl⟩

/-! ## Similarity search (`VectorService.searchSimilar`, vectorService.js
lines 69-110)

The Pinecone query is external; the part of `searchSimilar` under
verification is the post-processing of the store's `matches` (lines
90-98): threshold filtering and mapping to scored candidates. -/

/-- The metadata fields the retrieval core reads. -/
structure Metadata where
  content : Option String
  sourceType : Option String
  sourceId : Option String
deriving DecidableEq

def emptyMetadata : Metadata := ⟨none, none, none⟩

/-- One `id`/`score`/`metadata` triple reported by the vector store. -/
structure StoreMatch where
  id : String
  score : ℚ
  metadata : Option Metadata
deriving DecidableEq

/-- A scored candidate as produced by the search. -/
structure Candidate where
  id : String
  score : ℚ
  content : String
  metadata : Metadata
deriving DecidableEq

/-- Source mapping `match => (id, score, content: match.metadata?.content
or empty, metadata: match.metadata or empty)`. -/
def matchToCandidate (m : StoreMatch) : Candidate :=
  ⟨m.id, m.score, (m.metadata.bind Metadata.content).getD "", m.metadata.getD emptyMetadata⟩

/-- The threshold filter and candidate mapping of `searchSimilar`:
`matches.filter(match => match.score >= this.similarityThreshold).map(…)`. -/
def searchSimilar (ms : List StoreMatch) (similarityThreshold : ℚ) : List Candidate :=
  (ms.filter (fun m => similarityThreshold ≤ m.score)).map matchToCandidate

/-- C7.  Every candidate returned by `searchSimilar` scores at least the
similarity threshold, every store match scoring below the threshold is
discarded, and concretely: with threshold `0.7` and store results scoring
`0.9` and `0.5`, only the `0.9` candidate is returned. -/
theorem searchSimilar_threshold (ms : List StoreMatch) (t : ℚ) :
    (∀ c ∈ searchSimilar ms t, t ≤ c.score) ∧
    (∀ m ∈ ms, m.score < t → matchToCandidate m ∉ searchSimilar ms t) ∧
    searchSimilar [⟨"a", 9/10, none⟩, ⟨"b", 5/10, none⟩] (7/10) =
      [matchToCandidate ⟨"a", 9/10, none⟩] := by
  refine ⟨?_, ?_, ?_⟩
  · intro c hc
    obtain ⟨m, hm, rfl⟩ := List.mem_map.mp hc
    exact of_decide_eq_true (List.mem_filter.mp hm).2
  · intro m _hm hlt hmem
    obtain ⟨m', hm', heq⟩ := List.mem_map.mp hmem
    have hle : t ≤ m'.score := of_decide_eq_true (List.mem_filter.mp hm').2
    have hscore : m'.score = m.score := congrArg Candidate.score heq
    exact absurd (hscore ▸ hle) (not_le.mpr hlt)
  · norm_num [searchSimilar, List.filter_cons, List.filter_nil]

/-- Witness for C7: instantiates the theorem at the scenario input and
uses its second conjunct to exclude the below-threshold match. -/
theorem searchSimilar_threshold_witness :
    (⟨"b", 5/10, none⟩ : StoreMatch) ∈
        ([⟨"a", 9/10, none⟩, ⟨"b", 5/10, none⟩] : List StoreMatch) ∧
      (5 : ℚ)/10 < 7/10 ∧
      matchToCandidate ⟨"b", 5/10, none⟩ ∉
        searchSimilar [⟨"a", 9/10, none⟩, ⟨"b", 5/10, none⟩] (7/10) :=
  ⟨by simp, by norm_num,
    (searchSimilar_threshold [⟨"a", 9/10, none⟩, ⟨"b", 5/10, none⟩] (7/10)).2.1
      ⟨"b", 5/10, none⟩ (by simp) (by norm_num)⟩

/-- The spec's clamped thresholding, stated in the spec's words for
comparison with the source's `searchSimilar`: "ScoredCandidate score …
is clamped into [0,1] before comparison against `similarityThreshold`". -/
def searchSimilarSpecClamped (ms : List StoreMatch) (similarityThreshold : ℚ) :
    List Candidate :=
  (ms.filter (fun m => similarityThreshold ≤ max 0 (min 1 m.score))).map matchToCandidate

/-- Counterexample to C8 as stated: with a store score of `1.5` and
threshold `1.25`, the source compares the raw score (`1.5 ≥ 1.25`, kept)
while clamping first would discard it (`1.0 < 1.25`) — the two disagree,
so `searchSimilar` does not clamp before comparing. -/
theorem searchSimilar_clamp_counterexample :
    searchSimilar [⟨"a", 3/2, none⟩] (5/4) ≠
      searchSimilarSpecClamped [⟨"a", 3/2, none⟩] (5/4) := by
  have h1 : searchSimilar [⟨"a", 3/2, none⟩] (5/4) =
      [matchToCandidate ⟨"a", 3/2, none⟩] := by
    norm_num [searchSimilar, List.filter_cons, List.filter_nil]
  have h2 : searchSimilarSpecClamped [⟨"a", 3/2, none⟩] (5/4) = [] := by
    norm_num [searchSimilarSpecClamped, List.filter_cons, List.filter_nil]
  rw [h1, h2]
  simp

/-- C8 amended.  `searchSimilar` compares the raw store score directly
against `similarityThreshold`, with no clamping into `[0,1]`: a match is
kept exactly when its reported score is at least the threshold (and its
raw score is carried into the candidate unchanged). -/
theorem searchSimilar_raw_threshold (ms : List StoreMatch) (t : ℚ)
    (m : StoreMatch) (hm : m ∈ ms) :
    matchToCandidate m ∈ searchSimilar ms t ↔ t ≤ m.score := by
  constructor
  · intro hmem
    obtain ⟨m', hm', heq⟩ := List.mem_map.mp hmem
    have hle : t ≤ m'.score := of_decide_eq_true (List.mem_filter.mp hm').2
    have hscore : m'.score = m.score := congrArg Candidate.score heq
    exact hscore ▸ hle
  · intro hle
    exact List.mem_map.mpr ⟨m, List.mem_filter.mpr ⟨hm, decide_eq_true hle⟩, rfl⟩

/-- Witness for (amended) C8 at the out-of-range score `1.5` with
threshold `1.25`: the raw comparison decides membership. -/
theorem searchSimilar_raw_threshold_witness :
    (⟨"a", 3/2, none⟩ : StoreMatch) ∈ ([⟨"a", 3/2, none⟩] : List StoreMatch) ∧
      (matchToCandidate ⟨"a", 3/2, none⟩ ∈ searchSimilar [⟨"a", 3/2, none⟩] (5/4) ↔
        (5 : ℚ)/4 ≤ 3/2) :=
  ⟨List.mem_singleton.mpr rfl,
    searchSimilar_raw_threshold [⟨"a", 3/2, none⟩] (5/4) ⟨"a", 3/2, none⟩
      (List.mem_singleton.mpr rfl)⟩

/-! ## Context assembly (`RAGService.retrieveRelevantContext`,
ragService.js lines 13-74, and `LLMService.estimateTokens` /
`validateContextSize`, llmService.js lines 227-239)

The store query is external, so the function is modelled from its
`searchResults` onward — the claim quantifies over every candidate list. -/

/-- JS `(x).toFixed(1)` for the relevance percentage: nearest tenth, ties
away from zero for the non-negative scores displayed (Mathlib's `round`
ties upward, matching `toFixed` on them). -/
def toFixed1 (q : ℚ) : String :=
  let n : ℤ := round (q * 10)
  (if n < 0 then "-" else "") ++ toString (n.natAbs / 10) ++ "." ++ toString (n.natAbs % 10)

/-- Formatting of one retrieved chunk (ragService.js lines 50-57); JS
truthiness makes an absent or empty `sourceType` fall back to
`"Knowledge Base"` and a zero score drop the relevance annotation. -/
def formatCandidate (r : Candidate) : String :=
  let sourceInfo :=
    if (r.metadata.sourceType.getD "") ≠ "" then "[Source: " ++ r.metadata.sourceType.getD ""
    else "[Source: Knowledge Base"
  let scoreInfo :=
    if r.score ≠ 0 then ", Relevance: " ++ toFixed1 (r.score * 100) ++ "%]" else "]"
  sourceInfo ++ scoreInfo ++ ":\n" ++ r.content ++ "\n"

/-- Source `estimateTokens`: `Math.ceil(text.length / 4)`. -/
def estimateTokens (text : String) : ℕ :=
  (text.length + 3) / 4

/-- Source `validateContextSize(context, maxTokens = 4000)`. -/
def validateContextSize (context : String) (maxTokens : ℕ) : Bool :=
  estimateTokens context ≤ maxTokens

/-- The body of `retrieveRelevantContext` from the store's search results
onward: optional reranking (threshold-filtered, indices resolved back into
the search results), `slice(0, maxContextChunks)`, block formatting joined
by `'\n'`, then the size check — an over-budget context is truncated to
8000 characters instead of raising.  Out-of-range reranker indices, which
in JS would produce `undefined` entries, contribute no candidate. -/
def retrieveRelevantContext
    (rerankProvider : String → List String → ℕ → Except String (List RerankResult))
    (query : String) (topK? : Option ℕ) (useReranking : Bool)
    (similarityThreshold : ℚ) (maxContextChunks : ℕ)
    (searchResults : List Candidate) : String :=
  if searchResults.length = 0 then ""
  else
    let finalResults :=
      if useReranking && decide (3 < searchResults.length) then
        let documents := searchResults.map Candidate.content
        let reranked :=
          rerankDocuments rerankProvider query documents (jsOrNat topK? (maxContextChunks * 2))
        (reranked.filter (fun r => similarityThreshold ≤ r.relevanceScore)).filterMap
          (fun r => searchResults.get? r.index)
      else searchResults
    let topResults := finalResults.take maxContextChunks
    let context := String.intercalate "\n" (topResults.map formatCandidate)
    if validateContextSize context 4000 then context else jsSubstring context 8000

theorem jsSubstring_length (s : String) (n : ℕ) :
    (jsSubstring s n).length = min n s.length := by
  show (s.data.take n).length = min n s.data.length
  simp

theorem truncate_length_le (context : String) :
    (if validateContextSize context 4000 then context
     else jsSubstring context 8000).length ≤ 4000 * 4 := by
  by_cases h : validateContextSize context 4000
  · rw [if_pos h]
    have := of_decide_eq_true h
    unfold estimateTokens at this
    omega
  · rw [if_neg h, jsSubstring_length]
    omega

/-- C2.  For every candidate list (and every reranker, query and
configuration), the context text returned by `retrieveRelevantContext`
never exceeds the configured token budget: its character length is at most
`maxTokens * 4 = 4000 * 4 = 16000` (token count being `ceil(length / 4)`),
and an over-budget context is truncated, never an error. -/
theorem retrieveRelevantContext_bounded
    (rerankProvider : String → List String → ℕ → Except String (List RerankResult))
    (query : String) (topK? : Option ℕ) (useReranking : Bool)
    (similarityThreshold : ℚ) (maxContextChunks : ℕ)
    (searchResults : List Candidate) :
    (retrieveRelevantContext rerankProvider query topK? useReranking
      similarityThreshold maxContextChunks searchResults).length ≤ 4000 * 4 := by
  rw [retrieveRelevantContext]
  by_cases h : searchResults.length = 0
  · rw [if_pos h]
    decide
  · rw [if_neg h]
    exact truncate_length_le _

/-! ## Hybrid search (`RAGService.generateSearchQueries` lines 250-277 and
`RAGService.hybridSearch` lines 279-326 of ragService.js) -/

/-- A generator response: text plus an estimated token count. -/
structure LlmResponse where
  content : String
  tokens : ℕ

/-- The query-expansion prompt built by `generateSearchQueries`. -/
def queryExpansionPrompt (query : String) : String :=
  "Generate 3 different search queries based on this question: \"" ++ query ++
    "\"\n\nQueries:"

/-- Source `q.replace` of the leading-enumeration regex: strip a leading `digits.` enumeration
marker and the whitespace after it, when present. -/
def stripEnumMarker (s : String) : String :=
  let l := s.data
  let ds := l.takeWhile Char.isDigit
  if ds.isEmpty then s
  else
    match l.drop ds.length with
    | '.' :: rest => String.mk (rest.dropWhile isWsChar)
    | _ => s

/-- Parsing of the expansion response: split on newlines, strip enumeration
markers, trim, drop empty lines. -/
def parseQueries (content : String) : List String :=
  ((content.splitOn "\n").map (fun q => (stripEnumMarker q).trim)).filter
    (fun q => 0 < q.length)

/-- Source `[...new Set(queries)]`: a JS `Set` keeps the first occurrence of each
value, in insertion order. -/
def dedupKeepFirst : List String → List String → List String
  | [], _ => []
  | x :: xs, seen =>
    if x ∈ seen then dedupKeepFirst xs seen else x :: dedupKeepFirst xs (x :: seen)

/-- Source `generateSearchQueries`: ask the generator for three variants; parse,
prepend the original query, deduplicate, keep at most 4.  The catch block
swallows any generator failure and returns `[query]`. -/
def generateSearchQueries (llm : String → Except String LlmResponse) (query : String) :
    List String :=
  match llm (queryExpansionPrompt query) with
  | .error _ => [query]
  | .ok response => (dedupKeepFirst (query :: parseQueries response.content) []).take 4

/-- The per-variant search loop of `hybridSearch`: run the store search
for each query in order, concatenating into `allResults`; a throwing
search aborts to the catch. -/
def collectResults (search : String → ℕ → Except String (List Candidate)) :
    List String → ℕ → Except String (List Candidate)
  | [], _ => .ok []
  | q :: qs, k =>
    match search q k with
    | .error e => .error e
    | .ok r =>
      match collectResults search qs k with
      | .error e => .error e
      | .ok rest => .ok (r ++ rest)

/-- Source `result.content.substring(0, 100)`, the deduplication key. -/
def contentKey (c : Candidate) : String :=
  jsSubstring c.content 100

/-- The `seenContent` deduplication of `hybridSearch`: keep each content
prefix's first candidate only. -/
def dedupByContent : List Candidate → List String → List Candidate
  | [], _ => []
  | c :: cs, seen =>
    if contentKey c ∈ seen then dedupByContent cs seen
    else c :: dedupByContent cs (contentKey c :: seen)

/-- Source `hybridSearch(query, options)`: expand the query, search per variant
with `options.topK || 3`, deduplicate by content prefix, rerank whenever
more than one unique candidate remains (resolving reranker indices back
into the unique list; an out-of-range index, `undefined` in JS, yields no
candidate), otherwise truncate to `options.topK || maxContextChunks`.  The
catch falls back to a plain search on the original query (whose own
default `topK`, the store service's `maxResults`, is read from the same
environment default as `maxContextChunks`). -/
def hybridSearch (llm : String → Except String LlmResponse)
    (search : String → ℕ → Except String (List Candidate))
    (rerankProvider : String → List String → ℕ → Except String (List RerankResult))
    (maxContextChunks : ℕ) (query : String) (topK? : Option ℕ) :
    Except String (List Candidate) :=
  let attempt : Except String (List Candidate) :=
    match collectResults search (generateSearchQueries llm query) (jsOrNat topK? 3) with
    | .error e => .error e
    | .ok allResults =>
      let uniqueResults := dedupByContent allResults []
      if 1 < uniqueResults.length then
        let documents := uniqueResults.map Candidate.content
        let reranked :=
          rerankDocuments rerankProvider query documents (jsOrNat topK? maxContextChunks)
        Except.ok (reranked.filterMap (fun r => uniqueResults.get? r.index))
      else Except.ok (uniqueResults.take (jsOrNat topK? maxContextChunks))
  match attempt with
  | .ok r => .ok r
  | .error _ => search query (jsOrNat topK? maxContextChunks)

/-- A generator that always fails, so query expansion falls back to the
original query alone. -/
def llmFail : String → Except String LlmResponse :=
  fun _ => .error "expansion failure"

/-- Two store candidates with distinct ids but the same content prefix. -/
def dupCandA : Candidate := ⟨"id1", 9/10, "same passage text", emptyMetadata⟩

def dupCandB : Candidate := ⟨"id2", 8/10, "same passage text", emptyMetadata⟩

/-- A store search returning both duplicate-content candidates. -/
def dupSearch : String → ℕ → Except String (List Candidate) :=
  fun _ _ => .ok [dupCandA, dupCandB]

/-- A rerank provider that always fails (irrelevant to the counterexample:
the deduplicated set is a singleton, so reranking is skipped). -/
def noRerank : String → List String → ℕ → Except String (List RerankResult) :=
  fun _ _ _ => .error "rerank unavailable"

/-- Counterexample to C6 as stated: with query expansion failing and a
store returning two candidates sharing a 100-character content prefix,
`hybridSearch` content-deduplicates and returns one candidate, while the
plain `searchSimilar` call returns both — same-candidates/same-order/
same-count equality fails. -/
theorem hybridSearch_not_plain_search :
    hybridSearch llmFail dupSearch noRerank 5 "q" (some 2) ≠ dupSearch "q" 2 := by
  have h1 : hybridSearch llmFail dupSearch noRerank 5 "q" (some 2) =
      Except.ok [dupCandA] := rfl
  have h2 : dupSearch "q" 2 = Except.ok [dupCandA, dupCandB] := rfl
  rw [h1, h2]
  intro h
  have h3 : ([dupCandA] : List Candidate) = [dupCandA, dupCandB] := Except.ok.inj h
  simp at h3

theorem dedupByContent_subset (l : List Candidate) :
    ∀ (seen : List String) (c : Candidate), c ∈ dedupByContent l seen → c ∈ l := by
  induction l with
  | nil => intro seen c hc; simp [dedupByContent] at hc
  | cons a l ih =>
    intro seen c hc
    rw [dedupByContent] at hc
    by_cases hk : contentKey a ∈ seen
    · rw [if_pos hk] at hc
      exact List.mem_cons_of_mem a (ih _ c hc)
    · rw [if_neg hk] at hc
      rcases List.mem_cons.mp hc with h | h
      · exact h ▸ List.mem_cons_self a l
      · exact List.mem_cons_of_mem a (ih _ c h)

/-- C6 amended.  When query expansion fails, `hybridSearch` degrades to a
single plain search over the original query — but post-processes its
output: content-prefix deduplication, then reranking when more than one
unique candidate remains, or truncation to `topK` otherwise.  Every
candidate it returns comes from the plain search result, though order and
count may differ (no error is surfaced for this failure mode). -/
theorem hybridSearch_expansion_failure_degrades
    (llm : String → Except String LlmResponse)
    (search : String → ℕ → Except String (List Candidate))
    (rerankProvider : String → List String → ℕ → Except String (List RerankResult))
    (maxContextChunks : ℕ) (query : String) (topK? : Option ℕ)
    (msg : String) (res : List Candidate)
    (hllm : llm (queryExpansionPrompt query) = .error msg)
    (hsearch : search query (jsOrNat topK? 3) = .ok res) :
    ∃ out, hybridSearch llm search rerankProvider maxContextChunks query topK? =
        Except.ok out ∧ ∀ c ∈ out, c ∈ res := by
  have hq : generateSearchQueries llm query = [query] := by
    rw [generateSearchQueries, hllm]
  have hc : collectResults search [query] (jsOrNat topK? 3) = .ok res := by
    simp [collectResults, hsearch]
  rw [hybridSearch, hq, hc]
  dsimp only
  by_cases hlen : 1 < (dedupByContent res []).length
  · rw [if_pos hlen]
    refine ⟨_, rfl, ?_⟩
    intro c hc'
    obtain ⟨r, _, hr⟩ := List.mem_filterMap.mp hc'
    exact dedupByContent_subset res [] c (List.get?_mem hr)
  · rw [if_neg hlen]
    refine ⟨_, rfl, ?_⟩
    intro c hc'
    exact dedupByContent_subset res [] c (List.take_subset _ _ hc')

/-- Witness for (amended) C6: failing expansion, duplicate-content store
results, concrete `topK = 2`. -/
theorem hybridSearch_expansion_failure_degrades_witness :
    llmFail (queryExpansionPrompt "q") = Except.error "expansion failure" ∧
      dupSearch "q" (jsOrNat (some 2) 3) = Except.ok [dupCandA, dupCandB] ∧
      ∃ out, hybridSearch llmFail dupSearch noRerank 5 "q" (some 2) = Except.ok out ∧
        ∀ c ∈ out, c ∈ [dupCandA, dupCandB] :=
  ⟨rfl, rfl,
    hybridSearch_expansion_failure_degrades llmFail dupSearch noRerank 5 "q" (some 2)
      "expansion failure" [dupCandA, dupCandB] rfl rfl⟩

/-! ## Primary embedding path (`EmbeddingService.generateEmbedding`,
embeddingService.js lines 11-53) -/

/-- A provider failure, as inspected by the catch block: an optional HTTP
status and a message. -/
structure ProviderError where
  status : Option ℕ
  message : String

/-- JS `error.message?.includes(pat)`. -/
def msgIncludes (message pat : String) : Bool :=
  (message.splitOn pat).length ≠ 1

/-- Source `error.status === 429 || error.message?.includes('rate limit')`. -/
def isRateLimitError (e : ProviderError) : Bool :=
  e.status = some 429 || msgIncludes e.message "rate limit"

/-- Source `error.status === 403 || error.message?.includes('quota')`. -/
def isQuotaError (e : ProviderError) : Bool :=
  e.status = some 403 || msgIncludes e.message "quota"

/-- Source `text.length > 2048 ? text.substring(0, 2048) : text`. -/
def truncatedText (text : String) : String :=
  if 2048 < text.length then jsSubstring text 2048 else text

/-- Source `generateEmbedding(text)`: reject empty input, call the provider on
the truncated text and return its first embedding; on a rate-limit or
quota failure fall back to the deterministic embedding of the full,
untruncated text; otherwise rethrow.  (An empty provider response throws
inside the `try`, so its message is re-wrapped by the catch.) -/
def generateEmbedding (provider : String → Except ProviderError (List (List ℚ)))
    (sqrtFn : ℚ → ℚ) (dims : ℕ) (st : ProcessState) (text : String) :
    Except String (List ℚ) :=
  if text = "" then .error "Failed to generate embedding: Invalid text input for embedding"
  else
    match provider (truncatedText text) with
    | .ok embeddings =>
      match embeddings with
      | [] => .error "Failed to generate embedding: Failed to generate embedding: Empty response"
      | e :: _ => .ok e
    | .error err =>
      if isRateLimitError err then .ok (generateFallbackEmbedding sqrtFn dims st text)
      else if isQuotaError err then .ok (generateFallbackEmbedding sqrtFn dims st text)
      else .error ("Failed to generate embedding: " ++ err.message)

/-- C10.  For texts longer than 2048 characters the primary path silently
truncates: the provider is consulted on exactly the first 2048 characters,
so whenever the provider answers, embedding `t` gives the same result as
embedding `t`'s first 2048 characters; the fallback path, by contrast,
hashes the full untruncated text (third conjunct). -/
theorem generateEmbedding_truncates
    (provider : String → Except ProviderError (List (List ℚ)))
    (sqrtFn : ℚ → ℚ) (dims : ℕ) (st : ProcessState) (text : String)
    (h : 2048 < text.length) :
    truncatedText text = jsSubstring text 2048 ∧
    (∀ embs, provider (jsSubstring text 2048) = .ok embs →
      generateEmbedding provider sqrtFn dims st text =
        generateEmbedding provider sqrtFn dims st (jsSubstring text 2048)) ∧
    (∀ err, provider (jsSubstring text 2048) = .error err → isRateLimitError err = true →
      generateEmbedding provider sqrtFn dims st text =
        .ok (generateFallbackEmbedding sqrtFn dims st text)) := by
  have htr : truncatedText text = jsSubstring text 2048 := by
    rw [truncatedText, if_pos h]
  have hlen2 : (jsSubstring text 2048).length = 2048 := by
    rw [jsSubstring_length]
    omega
  have htr2 : truncatedText (jsSubstring text 2048) = jsSubstring text 2048 := by
    rw [truncatedText, if_neg]
    rw [hlen2]
    omega
  have hne : ¬ text = "" := by
    intro heq
    rw [heq] at h
    exact absurd h (by decide)
  have hne2 : ¬ jsSubstring text 2048 = "" := by
    intro heq
    rw [heq] at hlen2
    exact absurd hlen2 (by decide)
  refine ⟨htr, ?_, ?_⟩
  · intro embs hok
    rw [generateEmbedding, if_neg hne, htr, hok,
      generateEmbedding, if_neg hne2, htr2, hok]
  · intro err herr hrate
    rw [generateEmbedding, if_neg hne, htr, herr]
    simp [hrate]

/-- A provider that always answers with a single embedding. -/
def constProvider : String → Except ProviderError (List (List ℚ)) :=
  fun _ => .ok [[1]]

/-- A 2049-character text, one character past the truncation limit. -/
def longText : String :=
  String.mk (List.replicate 2049 'a')

theorem longText_length : longText.length = 2049 := by
  show (List.replicate 2049 'a').length = 2049
  rw [List.length_replicate]

/-- Witness for C10: concrete 2049-character text and an always-answering
provider; the primary-path results on the full and truncated text agree. -/
theorem generateEmbedding_truncates_witness :
    2048 < longText.length ∧
      constProvider (jsSubstring longText 2048) = Except.ok [[1]] ∧
      generateEmbedding constProvider (fun q => q) 4 ⟨0, 0⟩ longText =
        generateEmbedding constProvider (fun q => q) 4 ⟨0, 0⟩ (jsSubstring longText 2048) :=
  ⟨by rw [longText_length]; omega, rfl,
    (generateEmbedding_truncates constProvider (fun q => q) 4 ⟨0, 0⟩ longText
      (by rw [longText_length]; omega)).2.1 [[1]] rfl⟩

end ContextAI
